import Mathlib

/-!
Shallow embedding of the LingoPal client core (src/utils/audio.ts and
src/App.tsx) together with theorems settling the specification claims.

Conventions:
* machine numbers are modelled as `Nat`/`Int`/`ℚ` (the JavaScript doubles in
  play are exact on the values involved: 16-bit integers divided by 32768 are
  dyadic rationals representable in a double);
* fallible code returns `Option`/`Except`;
* the browser/network environment (remote calls, audio-context state) is an
  explicit oracle parameter.
-/

namespace AudioUtils

/-- `base64ToUint8Array` (src/utils/audio.ts:20-28): `atob` yields a string of
code units `< 256`; the loop stores `charCodeAt(i)` into a `Uint8Array`, which
truncates each value modulo 256.  We model the decoded code-unit sequence as a
`List Nat` and the `Uint8Array` store as `% 256`. -/
def base64ToUint8Array (codes : List Nat) : List Nat :=
  codes.map (fun c => c % 256)

/-- Reinterpret an unsigned 16-bit value as a signed one (two's complement),
as `Int16Array` element access does. -/
def toInt16 (v : Nat) : Int :=
  if v % 65536 < 32768 then ((v % 65536 : Nat) : Int)
  else ((v % 65536 : Nat) : Int) - 65536

/-- `new Int16Array(audioBytes.buffer)` (src/utils/audio.ts:43): the
`Uint8Array` owns a fresh buffer of exactly its length, and constructing an
`Int16Array` view over a buffer of odd byte length throws a `RangeError`.
On even length the elements are the little-endian 16-bit words. -/
def int16FromBytes : List Nat → Option (List Int)
  | [] => some []
  | [_] => none
  | lo :: hi :: rest => (int16FromBytes rest).map (fun t => toInt16 (lo % 256 + 256 * (hi % 256)) :: t)

/-- `decodeAudioData` (src/utils/audio.ts:34-54), parametrised by the decoded
byte sequence: builds the `Int16Array` view (throwing on odd byte length,
hence `Option`), then a single-channel buffer whose sample `i` is
`dataInt16[i] / 32768`.  Samples are exact dyadic rationals, so `ℚ` models the
`Float32` store faithfully up to the final rounding to 24-bit mantissa, which
is the identity on `k / 32768` for `|k| ≤ 32768`. -/
def decodeAudioData (bytes : List Nat) : Option (List ℚ) :=
  (int16FromBytes bytes).map (List.map (fun s : Int => ((s : ℚ) / 32768)))

end AudioUtils

namespace LingoPal

/-- JavaScript strings are modelled through their character lists (for the
strings in play every character is a single UTF-16 code unit, so JS indexing
and `.length` agree with the character count).  `listStartsWith s pre` is
`s.startsWith(pre)`. -/
def listStartsWith : List Char → List Char → Bool
  | _, [] => true
  | [], _ :: _ => false
  | a :: s, b :: pre => a == b && listStartsWith s pre

/-- JavaScript `String.prototype.includes`: some suffix of `s` starts with
`sub`. -/
def listIncludes (s sub : List Char) : Bool :=
  match s with
  | [] => sub.isEmpty
  | _ :: rest => listStartsWith s sub || listIncludes rest sub

def strIncludes (s sub : String) : Bool :=
  listIncludes s.data sub.data

/-- `toLowerCase`, restricted to the ASCII mapping (it agrees with the JS
full-Unicode mapping on every string this development evaluates). -/
def strToLower (s : String) : String :=
  ⟨s.data.map Char.toLower⟩

/-- `String.prototype.trim`: strip leading and trailing whitespace. -/
def listTrim (s : List Char) : List Char :=
  ((s.dropWhile Char.isWhitespace).reverse.dropWhile Char.isWhitespace).reverse

def strTrim (s : String) : String :=
  ⟨listTrim s.data⟩

/-- `isQuotaError` (src/App.tsx:190-193): the error message contains
"RESOURCE_EXHAUSTED", or its lower-casing contains "quota". -/
def isQuotaError (msg : String) : Bool :=
  strIncludes msg "RESOURCE_EXHAUSTED" || strIncludes (strToLower msg) "quota"

/-- Outcome of one remote `generateSpeech` attempt (the network is an
oracle). -/
inductive TtsResult
  | ok (audio : String)
  | err (msg : String)
deriving DecidableEq

/-- Observable side effects of the orchestration code, in program order. -/
inductive AppEvent
  | remoteTts (ix : Nat)
  | backoffMs (ms : Nat)
  | browserSpeak (text : String)
  | playStart (id : Nat) (rate : ℚ)
  | queuePush (id : Nat)
  | queueRemove (id : Nat)
deriving DecidableEq

/-- `generateSpeechWithRetry` (src/App.tsx:221-236).  `oracle n` is the
outcome of the `n`-th remote attempt; `attemptIx` indexes the next attempt;
`quotaFlag` is `ttsQuotaExceededRef.current` on entry.  Returns the outcome,
the flag on exit, and the effect trace.  When the flag is set the guard
throws "TTS quota exceeded"; the catch classifies that message as a quota
error (it contains "quota") and rethrows without any remote attempt.  A
quota-classified remote failure sets the flag and rethrows; other failures
are retried after `sleep(400)` while `retries > 0`. -/
def generateSpeechWithRetry (oracle : Nat → TtsResult) (attemptIx : Nat)
    (quotaFlag : Bool) (retries : Nat) :
    Except String String × Bool × List AppEvent :=
  if quotaFlag then
    (Except.error "TTS quota exceeded", true, [])
  else
    match oracle attemptIx with
    | TtsResult.ok audio => (Except.ok audio, quotaFlag, [AppEvent.remoteTts attemptIx])
    | TtsResult.err msg =>
      if isQuotaError msg then
        (Except.error msg, true, [AppEvent.remoteTts attemptIx])
      else
        match retries with
        | 0 => (Except.error msg, quotaFlag, [AppEvent.remoteTts attemptIx])
        | r + 1 =>
          let next := generateSpeechWithRetry oracle (attemptIx + 1) false r
          (next.1, next.2.1,
            AppEvent.remoteTts attemptIx :: AppEvent.backoffMs 400 :: next.2.2)


/-- Message sender (src/types, used throughout src/App.tsx). -/
inductive Sender
  | user
  | bot
deriving DecidableEq

/-- Correction feedback of the analysis result (services/gemini.ts schema). -/
structure Feedback where
  hasError : Bool
  ftype : Option String := none
  correction : Option String := none
  explanation : Option String := none
deriving DecidableEq

/-- Voice system command of the analysis result (services/gemini.ts schema). -/
structure SystemCommand where
  action : String
  voiceValue : Option String := none
  speedValue : Option ℚ := none
deriving DecidableEq

/-- Vocabulary entry of the analysis result (services/gemini.ts schema;
optional example/image fields omitted — nothing in the claims reads them). -/
structure VocabularyItem where
  term : String
  transliteration : String
  meaning : String
  partOfSpeech : String
deriving DecidableEq

/-- Structured analysis reply (`AIResponseData`, services/gemini.ts schema). -/
structure AIResponseData where
  userTranscript : String
  userTransliteration : Option String := none
  sourceLanguage : Option String := none
  targetText : String
  transliteration : String
  englishTranslation : String
  vocabulary : List VocabularyItem := []
  culturalNotes : List String := []
  feedback : Option Feedback := none
  systemCommand : Option SystemCommand := none
deriving DecidableEq

/-- Chat message (src/types).  The decoded `AudioBuffer` is an abstract token
(`Nat`); user messages carry a transcript, bot messages carry `content`. -/
structure Message where
  id : Nat
  sender : Sender
  content : Option AIResponseData := none
  transcriptText : Option String := none
  transcriptTransliteration : Option String := none
  audioBuffer : Option Nat := none
  playbackRateOverride : Option ℚ := none
deriving DecidableEq

/-- User settings (src/App.tsx:15-28); fields irrelevant to the claims are
kept with their defaults. -/
structure AppSettings where
  targetLanguage : String := "Arabic"
  voiceName : String := "Zephyr"
  speechSpeed : ℚ := 1
  paceMatch : Bool := false
  shadowMode : Bool := false
  micCues : Bool := true
  noiseGuard : Bool := true
deriving DecidableEq

/-- The mutable session state of src/App.tsx that the claims touch: React
state plus the refs.  `ctxRunning` is the `AudioContext` state as observed
after a resume attempt (the sequential model collapses `resume()`;
the interleaved model for the playback invariant is separate below). -/
structure AppState where
  messages : List Message := []
  pendingAutoPlayQueue : List Nat := []
  isRecording : Bool := false
  isLoading : Bool := false
  volumeLevel : ℚ := 0
  audioUnlockRequired : Bool := false
  ttsQuotaExceeded : Bool := false
  ctxRunning : Bool := true
  currentlyPlayingId : Option Nat := none
  sourceNode : Option Nat := none
  isSettingsOpen : Bool := false
  settings : AppSettings := {}
deriving DecidableEq

/-- `stopAudioPlayback` (src/App.tsx:830-838): stop and drop the current
source node, clear the currently-playing marker. -/
def stopAudioPlayback (st : AppState) : AppState :=
  { st with sourceNode := none, currentlyPlayingId := none }

/-- `playMessageAudio` (src/App.tsx:770-828), sequential model (each `await`
resolves with no interleaved callback).  Stops current playback, then: if the
context is not running even after the resume attempt, enqueue the id (if
absent), raise the unlock flag and return `false`; otherwise bind the given
or previously attached buffer to a new source at the effective rate
(explicit override ?? per-message override ?? global speech speed) and start
it.  With no buffer available it returns `false` with no state change. -/
def playMessageAudio (st : AppState) (msgId : Nat) (buffer : Option Nat)
    (rateOverride : Option ℚ) : Bool × AppState × List AppEvent :=
  let st1 := stopAudioPlayback st
  if st1.ctxRunning then
    let audioBuffer :=
      match buffer with
      | some b => some b
      | none => (st1.messages.find? (fun (m : Message) => m.id == msgId)).bind Message.audioBuffer
    match audioBuffer with
    | some _ =>
      let msg := st1.messages.find? (fun (m : Message) => m.id == msgId)
      let rate :=
        match rateOverride with
        | some r => r
        | none =>
          match msg.bind Message.playbackRateOverride with
          | some r => r
          | none => st1.settings.speechSpeed
      (true,
       { st1 with sourceNode := some msgId, currentlyPlayingId := some msgId,
                  audioUnlockRequired := false },
       [AppEvent.playStart msgId rate])
    | none => (false, st1, [])
  else
    (false,
     { st1 with
        pendingAutoPlayQueue :=
          if msgId ∈ st1.pendingAutoPlayQueue then st1.pendingAutoPlayQueue
          else st1.pendingAutoPlayQueue ++ [msgId],
        audioUnlockRequired := true },
     if msgId ∈ st1.pendingAutoPlayQueue then [] else [AppEvent.queuePush msgId])

/-- `tryPlayPending` (src/App.tsx:474-495), sequential model: the 250 ms
rescheduled retry is run in place on the resulting state (a quiescent
environment between timer ticks).  Above the 20-retry ceiling it raises the
unlock prompt and schedules nothing.  Otherwise it inspects only the queue
head; with an attached buffer it attempts playback, popping the head on
success, re-raising the unlock flag and retrying on failure; with no buffer
it retries. -/
def tryPlayPending (st : AppState) (retryCount : Nat) : AppState × List AppEvent :=
  if _h : retryCount > 20 then
    ({ st with audioUnlockRequired := true }, [])
  else
    match st.pendingAutoPlayQueue.head? with
    | none => (st, [])
    | some pendingId =>
      match (st.messages.find? (fun (m : Message) => m.id == pendingId)).bind Message.audioBuffer with
      | some buf =>
        let res := playMessageAudio st pendingId (some buf) none
        if res.1 then
          ({ res.2.1 with pendingAutoPlayQueue := res.2.1.pendingAutoPlayQueue.tail },
           res.2.2 ++ [AppEvent.queueRemove pendingId])
        else
          let next := tryPlayPending { res.2.1 with audioUnlockRequired := true } (retryCount + 1)
          (next.1, res.2.2 ++ next.2)
      | none => tryPlayPending st (retryCount + 1)
termination_by 21 - retryCount
decreasing_by all_goals omega

/-- `normalizeRepeatInput` (src/App.tsx:238): lower-case then trim. -/
def normalizeRepeatInput (text : String) : String :=
  strTrim (strToLower text)

/-- The fixed multilingual phrase list of `parseRepeatRequest`
(src/App.tsx:242-272). -/
def repeatPhrases : List String :=
  ["repeat", "repeat it", "repeat please", "say again", "again", "once more",
   "one more time", "مرة أخرى", "مرة ثانيه", "مرة ثانية", "اعِد", "أعِد",
   "كرر", "repite", "repita", "otra vez", "de nuevo", "encore", "répète",
   "répétez", "wiederholen", "nochmal", "noch einmal", "もう一度", "繰り返して",
   "再说一遍", "再說一遍", "повтори", "повторите"]

/-- `parseRepeatRequest` (src/App.tsx:239-281): `none` when the utterance is
not a repeat request; `some ""` on an exact phrase match; `some rest` when it
starts with a phrase followed by a space, where `rest` is the trimmed
remainder. -/
def parseRepeatRequest (text : String) : Option String :=
  let normalized := normalizeRepeatInput text
  if normalized.data.isEmpty then none
  else if repeatPhrases.any (fun phrase => normalized == phrase) then some ""
  else
    match repeatPhrases.find?
        (fun phrase => listStartsWith normalized.data (phrase.data ++ [' '])) with
    | some phrase => some (strTrim ⟨normalized.data.drop phrase.data.length⟩)
    | none => none


/-- `handleSystemCommand` (src/App.tsx:757-768).  `cmd.speedValue &&
!paceMatch` guards the speed update (`speedValue` must be present and, being
a JS truthiness test, non-zero); OPEN/CLOSE_SETTINGS toggle the modal. -/
def handleSystemCommand (st : AppState) (cmd : SystemCommand) : AppState :=
  let st' :=
    match cmd.speedValue with
    | some v =>
      if cmd.action == "SET_SPEED" && !(v == 0) && !st.settings.paceMatch then
        { st with settings := { st.settings with speechSpeed := v } }
      else st
    | none => st
  if cmd.action == "OPEN_SETTINGS" then { st' with isSettingsOpen := true }
  else if cmd.action == "CLOSE_SETTINGS" then { st' with isSettingsOpen := false }
  else st'

/-- The repeat-request interception block of `handleRecordingComplete`
(src/App.tsx:647-676): on `some rest` with non-empty trimmed `rest`,
substitute the literal requested text; on `some ""`, substitute the most
recent bot message's content, keeping the new user-transcript fields and
clearing vocabulary, notes, feedback and system command; otherwise leave the
analysis result unchanged. -/
def applyRepeatRequest (messagesNow : List Message) (responseData : AIResponseData) :
    AIResponseData :=
  match parseRepeatRequest responseData.userTranscript with
  | none => responseData
  | some repeatRequest =>
    let requestedText := strTrim repeatRequest
    if !requestedText.data.isEmpty then
      { responseData with
          targetText := requestedText,
          englishTranslation := requestedText,
          transliteration := requestedText,
          vocabulary := [], culturalNotes := [],
          feedback := none, systemCommand := none }
    else
      match messagesNow.reverse.find?
          (fun (m : Message) => m.sender == Sender.bot && m.content.isSome) with
      | some lastBot =>
        match lastBot.content with
        | some c =>
          { c with
              userTranscript := responseData.userTranscript,
              userTransliteration := responseData.userTransliteration,
              sourceLanguage := responseData.sourceLanguage,
              vocabulary := [], culturalNotes := [],
              feedback := none, systemCommand := none }
        | none => responseData
      | none => responseData

/-- Word count of the pace-match block (src/App.tsx:695):
`transcript.trim().split(/\s+/).filter(Boolean).length`. -/
def countWordsAux : List Char → Bool → Nat
  | [], _ => 0
  | c :: rest, inWord =>
    if c.isWhitespace then countWordsAux rest false
    else (if inWord then 0 else 1) + countWordsAux rest true

def countWords (s : String) : Nat :=
  countWordsAux s.data false

/-- `handleRecordingComplete` (src/App.tsx:620-755), sequential model of the
async turn.  Oracles: `analysis` is the remote analysis outcome, `ttsOracle`
the successive remote synthesis outcomes, `userMsgId`/`botMsgId` the fresh
UUIDs, `bufToken` the decoded audio buffer, `durationSec` the elapsed
recording time in seconds and `recordingStarted` the truthiness of
`recordingStartRef.current`; `hasChunks` is whether any audio chunk was
buffered.  `prefetchVocabAudio` is fire-and-forget (`void …`) and touches
only the vocabulary cache and the quota flag, so it is not inlined here. -/
def handleRecordingComplete (st : AppState) (analysis : Except String AIResponseData)
    (ttsOracle : Nat → TtsResult) (userMsgId botMsgId : Nat) (bufToken : Nat)
    (durationSec : ℚ) (recordingStarted : Bool) (hasChunks : Bool) :
    AppState × List AppEvent :=
  let st0 := { st with isRecording := false, volumeLevel := 0 }
  if !hasChunks then (st0, [])
  else
    let st1 := { st0 with isLoading := true }
    match analysis with
    | Except.error _ => ({ st1 with isLoading := false }, [])
    | Except.ok responseData0 =>
      let st2 :=
        match responseData0.systemCommand with
        | some cmd => handleSystemCommand st1 cmd
        | none => st1
      let responseData := applyRepeatRequest st2.messages responseData0
      let userMsg : Message :=
        { id := userMsgId, sender := Sender.user,
          transcriptText := some responseData.userTranscript,
          transcriptTransliteration := responseData.userTransliteration }
      let pushEvents :=
        if botMsgId ∈ st2.pendingAutoPlayQueue then ([] : List AppEvent)
        else [AppEvent.queuePush botMsgId]
      let queue :=
        if botMsgId ∈ st2.pendingAutoPlayQueue then st2.pendingAutoPlayQueue
        else st2.pendingAutoPlayQueue ++ [botMsgId]
      let paceOverride : Option ℚ :=
        if st2.settings.paceMatch && recordingStarted then
          let d := max 1 durationSec
          let wordCount := countWords responseData.userTranscript
          let wpm := (wordCount : ℚ) / d * 60
          some (min (1.2 : ℚ) (max (0.8 : ℚ) (wpm / 130)))
        else none
      let botMsg : Message :=
        { id := botMsgId, sender := Sender.bot, content := some responseData,
          playbackRateOverride := paceOverride }
      let st3 := { st2 with messages := st2.messages ++ [userMsg, botMsg],
                            pendingAutoPlayQueue := queue, isLoading := false }
      let ttsText := responseData.targetText
      let tts := generateSpeechWithRetry ttsOracle 0 st3.ttsQuotaExceeded 1
      let st4 := { st3 with ttsQuotaExceeded := tts.2.1 }
      match tts.1 with
      | Except.ok _audio =>
        let st5 := { st4 with messages := st4.messages.map (fun m =>
            if m.id == botMsgId then { m with audioBuffer := some bufToken } else m) }
        let st6 := if !st5.ctxRunning then { st5 with audioUnlockRequired := true } else st5
        let res := playMessageAudio st6 botMsgId (some bufToken) paceOverride
        if res.1 then
          ({ res.2.1 with
              audioUnlockRequired := false,
              pendingAutoPlayQueue :=
                if res.2.1.pendingAutoPlayQueue.head? == some botMsgId
                then res.2.1.pendingAutoPlayQueue.tail
                else res.2.1.pendingAutoPlayQueue },
           pushEvents ++ tts.2.2 ++ res.2.2 ++
             (if res.2.1.pendingAutoPlayQueue.head? == some botMsgId
              then [AppEvent.queueRemove botMsgId] else []))
        else
          ({ res.2.1 with audioUnlockRequired := true },
           pushEvents ++ tts.2.2 ++ res.2.2)
      | Except.error emsg =>
        if isQuotaError emsg then
          let removeEvents :=
            if botMsgId ∈ st4.pendingAutoPlayQueue then [AppEvent.queueRemove botMsgId]
            else []
          ({ st4 with pendingAutoPlayQueue :=
               st4.pendingAutoPlayQueue.filter (fun id => id != botMsgId) },
           pushEvents ++ tts.2.2 ++ removeEvents ++ [AppEvent.browserSpeak ttsText])
        else (st4, pushEvents ++ tts.2.2)

/-- State of the volume-polling closure in `setupVAD` (src/App.tsx:558-586):
the local `samples` and `baselineSum` variables and `noiseFloorRef`. -/
structure VadState where
  samples : Nat
  baselineSum : ℚ
  noiseFloor : Option ℚ
deriving DecidableEq

/-- `noiseFloorRef.current = null` and the counters reset on session start
(src/App.tsx:508, 558-559). -/
def vadInit : VadState :=
  { samples := 0, baselineSum := 0, noiseFloor := none }

/-- One tick of the `setInterval` callback (src/App.tsx:560-586), given the
computed mean amplitude `average`: with noise-guard on and fewer than 12
samples, accumulate; on the 12th, fix the floor as `baselineSum / samples`.
The floor then applied is `noiseGuard && noiseFloorRef.current ? … : 0` — a
JS truthiness test, so a floor of 0 (falsy) also yields 0.  Returns the new
state and the published visual level `min(max(0, average - floor) / 100, 1)`. -/
def vadStep (noiseGuard : Bool) (st : VadState) (average : ℚ) : VadState × ℚ :=
  let st' :=
    if noiseGuard && decide (st.samples < 12) then
      let baselineSum := st.baselineSum + average
      let samples := st.samples + 1
      { samples := samples, baselineSum := baselineSum,
        noiseFloor :=
          if samples = 12 then some (baselineSum / (samples : ℚ)) else st.noiseFloor }
    else st
  let floor : ℚ :=
    if noiseGuard then
      match st'.noiseFloor with
      | some f => if f = 0 then 0 else f
      | none => 0
    else 0
  let adjusted := max 0 (average - floor)
  (st', min (adjusted / 100) 1)

/-- Folding the polling ticks over a list of successive mean-amplitude
readings, collecting the published levels. -/
def vadRun (noiseGuard : Bool) (st : VadState) : List ℚ → VadState × List ℚ
  | [] => (st, [])
  | a :: rest =>
    let step := vadStep noiseGuard st a
    let next := vadRun noiseGuard step.1 rest
    (next.1, step.2 :: next.2)

/-- What one timer tick of `tryPlayPending` (src/App.tsx:474-495) observes.
Between the 250 ms retries, other callbacks may mutate the queue, the
messages and the audio context, so the observation at each retry count is an
oracle. -/
inductive PendingObs
  | emptyQueue
  | noBuffer
  | playFailed
  | played
deriving DecidableEq

/-- Retry-control skeleton of `tryPlayPending`: the branch structure of the
source with the state predicates abstracted into `obs`.  Returns the list of
retry counts at which a tick ran below the ceiling, and whether the
give-up branch (raise the unlock prompt, schedule nothing) ran. -/
def tryPlayPendingSchedule (obs : Nat → PendingObs) (retryCount : Nat) :
    List Nat × Bool :=
  if _h : retryCount > 20 then ([], true)
  else
    match obs retryCount with
    | PendingObs.emptyQueue => ([retryCount], false)
    | PendingObs.played => ([retryCount], false)
    | PendingObs.noBuffer =>
      let next := tryPlayPendingSchedule obs (retryCount + 1)
      (retryCount :: next.1, next.2)
    | PendingObs.playFailed =>
      let next := tryPlayPendingSchedule obs (retryCount + 1)
      (retryCount :: next.1, next.2)
termination_by 21 - retryCount
decreasing_by all_goals omega

end LingoPal

namespace PlaySched

/-!
Interleaving model of the playback coordinator (src/App.tsx:770-838) for the
at-most-one-active-source claim.  `playMessageAudio` is an async function: it
runs synchronously from entry (`stopAudioPlayback()`, `ensureAudioContext()`,
the `suspended` check) up to the first `await`; when the context is suspended
it awaits `ctx.resume()` and then `sleep(50)`, and each `await` yields to
other callbacks; the remainder (the running-check, buffer binding and
`source.start()`) runs in a later microtask/timer tick.  A thread models one
invocation on a message whose buffer is available; `active` collects started
source nodes (identified by message id) that no call has stopped.
-/

/-- Program counter of one `playMessageAudio` invocation, split at its
`await` points. -/
inductive Phase
  | entry
  | resuming
  | sleeping
  | done
deriving DecidableEq

structure SState where
  ctxRunning : Bool
  sourceNode : Option Nat
  active : List Nat
  pending : List Nat
  unlockReq : Bool
deriving DecidableEq

structure SThread where
  msgId : Nat
  resumeSucceeds : Bool
  phase : Phase
deriving DecidableEq

/-- `stopAudioPlayback` (src/App.tsx:830-838): stops the node held in
`sourceNodeRef` (only that one) and clears the ref. -/
def stopCurrent (s : SState) : SState :=
  match s.sourceNode with
  | some x => { s with active := s.active.erase x, sourceNode := none }
  | none => s

/-- Bind the buffer and `source.start()` (src/App.tsx:801-825). -/
def startSource (s : SState) (msgId : Nat) : SState :=
  { s with active := s.active ++ [msgId], sourceNode := some msgId,
           unlockReq := false }

/-- One atomic segment of one invocation. `entry`: stop current playback,
then either run to completion (context already running — no `await`) or
suspend at `ctx.resume()`.  `resuming`: the resume promise settles (on
success the context is now running) and the call parks at `sleep(50)`.
`sleeping`: the timer fires; re-check the state and either start the source
or push the id on the pending queue and raise the unlock flag. -/
def stepThread (s : SState) (t : SThread) : SState × SThread :=
  match t.phase with
  | Phase.entry =>
    let s' := stopCurrent s
    if s'.ctxRunning then
      (startSource s' t.msgId, { t with phase := Phase.done })
    else
      (s', { t with phase := Phase.resuming })
  | Phase.resuming =>
    (if t.resumeSucceeds then { s with ctxRunning := true } else s,
     { t with phase := Phase.sleeping })
  | Phase.sleeping =>
    if s.ctxRunning then
      (startSource s t.msgId, { t with phase := Phase.done })
    else
      ({ s with
          pending := if t.msgId ∈ s.pending then s.pending else s.pending ++ [t.msgId],
          unlockReq := true },
       { t with phase := Phase.done })
  | Phase.done => (s, t)

/-- Run a schedule: each entry names the thread whose next segment runs. -/
def run (s : SState) (threads : List SThread) : List Nat → SState × List SThread
  | [] => (s, threads)
  | tid :: rest =>
    match threads[tid]? with
    | none => run s threads rest
    | some t =>
      let step := stepThread s t
      run step.1 (threads.set tid step.2) rest

/-- The claim C2 formalised: from this start state, no interleaving of the
given play invocations ever has two sources active. -/
def NeverTwoActive (s : SState) (threads : List SThread) : Prop :=
  ∀ sched : List Nat, (run s threads sched).1.active.length ≤ 1

end PlaySched

namespace LingoPal

/-- Checker for the pending-queue discipline "an entry is removed only after
a confirmed playback start of that message": scan the event trace keeping the
ids whose playback has started; every `queueRemove` must name a started id. -/
def removedOnlyAfterStart : List AppEvent → List Nat → Bool
  | [], _ => true
  | AppEvent.playStart id _ :: rest, started => removedOnlyAfterStart rest (id :: started)
  | AppEvent.queueRemove id :: rest, started =>
    decide (id ∈ started) && removedOnlyAfterStart rest started
  | _ :: rest, started => removedOnlyAfterStart rest started

/-- Concrete analysis reply used by witnesses and counterexamples: a plain
turn, no repeat phrase, no system command. -/
def rdW : AIResponseData :=
  { userTranscript := "hi", targetText := "hola",
    transliteration := "hola", englishTranslation := "hello" }

end LingoPal

namespace PlaySched

/-- Start state with a suspended audio context and nothing playing. -/
def suspendedStart : SState :=
  { ctxRunning := false, sourceNode := none, active := [], pending := [],
    unlockReq := false }

/-- Start state with a running audio context and nothing playing. -/
def runningStart : SState :=
  { ctxRunning := true, sourceNode := none, active := [], pending := [],
    unlockReq := false }

/-- Two play invocations (messages 1 and 2) about to enter, with successful
context resumes. -/
def twoPlayThreads : List SThread :=
  [{ msgId := 1, resumeSucceeds := true, phase := Phase.entry },
   { msgId := 2, resumeSucceeds := true, phase := Phase.entry }]

end PlaySched

namespace AudioUtils

lemma int16FromBytes_isSome : ∀ bytes : List Nat,
    (int16FromBytes bytes).isSome = true ↔ bytes.length % 2 = 0
  | [] => by simp [int16FromBytes]
  | [_] => by simp [int16FromBytes]
  | lo :: hi :: rest => by
    have ih := int16FromBytes_isSome rest
    cases h : int16FromBytes rest with
    | none =>
      rw [h] at ih
      simp only [int16FromBytes, h, Option.map_none', List.length_cons] at ih ⊢
      simp only [Option.isSome_none, Bool.false_eq_true, false_iff] at ih ⊢
      omega
    | some t =>
      rw [h] at ih
      simp only [int16FromBytes, h, Option.map_some', List.length_cons] at ih ⊢
      simp only [Option.isSome_some, true_iff] at ih ⊢
      omega

lemma int16FromBytes_length : ∀ (bytes : List Nat) (words : List Int),
    int16FromBytes bytes = some words → words.length = bytes.length / 2
  | [], words => by
    simp only [int16FromBytes, Option.some.injEq]
    rintro rfl; simp
  | [_], words => by simp [int16FromBytes]
  | lo :: hi :: rest, words => by
    cases h : int16FromBytes rest with
    | none => simp [int16FromBytes, h]
    | some t =>
      have ih := int16FromBytes_length rest t h
      simp only [int16FromBytes, h, Option.map_some', Option.some.injEq]
      rintro rfl
      simp only [List.length_cons, ih]
      omega

lemma toInt16_bounds (v : Nat) : -32768 ≤ toInt16 v ∧ toInt16 v ≤ 32767 := by
  unfold toInt16
  have h := Nat.mod_lt v (y := 65536) (by omega)
  split <;> omega

lemma int16FromBytes_get : ∀ (bytes : List Nat) (words : List Int),
    int16FromBytes bytes = some words → ∀ i, i < words.length →
    words.getD i 0 = toInt16 (bytes.getD (2 * i) 0 % 256 + 256 * (bytes.getD (2 * i + 1) 0 % 256))
  | [], words => by
    simp only [int16FromBytes, Option.some.injEq]
    rintro rfl; simp
  | [_], words => by simp [int16FromBytes]
  | lo :: hi :: rest, words => by
    cases h : int16FromBytes rest with
    | none => simp [int16FromBytes, h]
    | some t =>
      simp only [int16FromBytes, h, Option.map_some', Option.some.injEq]
      rintro rfl i hi'
      cases i with
      | zero => simp [toInt16]
      | succ j =>
        have ih := int16FromBytes_get rest t h j (by
          simp only [List.length_cons] at hi'; omega)
        have e1 : 2 * (j + 1) = 2 * j + 1 + 1 := by omega
        have e2 : 2 * (j + 1) + 1 = 2 * j + 1 + 1 + 1 := by omega
        simpa [e1, e2] using ih

/-- C1: for every input whose decoded byte sequence has even length,
`decodeAudioData` yields a single channel whose sample count is the byte
length divided by 2, and sample `i` is the little-endian signed 16-bit value
at position `i` divided by 32768, hence lies in [-1, 1]. -/
theorem decodeAudioData_correct (bytes : List Nat)
    (heven : bytes.length % 2 = 0) :
    ∃ samples : List ℚ, decodeAudioData bytes = some samples ∧
      samples.length = bytes.length / 2 ∧
      ∀ i, i < samples.length →
        samples.getD i 0 =
          (toInt16 (bytes.getD (2 * i) 0 % 256 + 256 * (bytes.getD (2 * i + 1) 0 % 256)) : ℚ)
            / 32768 ∧
        -1 ≤ samples.getD i 0 ∧ samples.getD i 0 ≤ 1 := by
  have hs : (int16FromBytes bytes).isSome = true := (int16FromBytes_isSome bytes).2 heven
  obtain ⟨words, hw⟩ := Option.isSome_iff_exists.1 hs
  refine ⟨words.map (fun s : Int => ((s : ℚ) / 32768)), ?_, ?_, ?_⟩
  · simp [decodeAudioData, hw]
  · simpa using int16FromBytes_length bytes words hw
  · intro i hi
    rw [List.length_map] at hi
    have hg : (words.map (fun s : Int => ((s : ℚ) / 32768))).getD i 0
        = ((words.getD i 0 : ℚ) / 32768) := by
      rw [List.getD_eq_getElem _ _ (by simpa using hi), List.getD_eq_getElem _ _ hi]
      simp
    have hv := int16FromBytes_get bytes words hw i hi
    have hb := toInt16_bounds
      (bytes.getD (2 * i) 0 % 256 + 256 * (bytes.getD (2 * i + 1) 0 % 256))
    refine ⟨by rw [hg, hv], ?_, ?_⟩
    · rw [hg, le_div_iff₀ (by norm_num : (0:ℚ) < 32768)]
      have hlow : (-32768 : ℚ) ≤ (words.getD i 0 : ℚ) := by exact_mod_cast (hv ▸ hb.1)
      linarith
    · rw [hg, div_le_one (by norm_num : (0:ℚ) < 32768)]
      have hhigh : (words.getD i 0 : ℚ) ≤ 32767 := by exact_mod_cast (hv ▸ hb.2)
      linarith

/-- Witness for C1 at the concrete byte sequence [0, 128, 255, 127]
(decoding to the samples -1 and 32767/32768). -/
theorem decodeAudioData_correct_witness :
    ∃ samples : List ℚ, decodeAudioData [0, 128, 255, 127] = some samples ∧
      samples.length = [0, 128, 255, 127].length / 2 ∧
      ∀ i, i < samples.length →
        samples.getD i 0 =
          (toInt16 ([0, 128, 255, 127].getD (2 * i) 0 % 256
            + 256 * ([0, 128, 255, 127].getD (2 * i + 1) 0 % 256)) : ℚ) / 32768 ∧
        -1 ≤ samples.getD i 0 ∧ samples.getD i 0 ≤ 1 :=
  decodeAudioData_correct [0, 128, 255, 127] (by decide)

/-- C10: `decodeAudioData` is not total: it succeeds exactly when the decoded
byte sequence has even length; on odd length the `Int16Array` view
construction throws, and under the even-length precondition the error branch
is unreachable. -/
theorem decodeAudioData_total_iff_even (bytes : List Nat) :
    (decodeAudioData bytes).isSome = true ↔ bytes.length % 2 = 0 := by
  unfold decodeAudioData
  rw [Option.isSome_map']
  exact int16FromBytes_isSome bytes


end AudioUtils

namespace LingoPal

/-- C9: if the remote analysis call fails, the turn aborts atomically — the
messages list and the pending-autoplay queue are unchanged, no effect (in
particular no synthesis request) is emitted, and the loading indicator is
cleared. -/
theorem analysis_failure_aborts_turn (st : AppState) (e : String)
    (ttsOracle : Nat → TtsResult) (userMsgId botMsgId bufToken : Nat)
    (durationSec : ℚ) (recordingStarted : Bool) :
    (handleRecordingComplete st (Except.error e) ttsOracle userMsgId botMsgId
        bufToken durationSec recordingStarted true).1.messages = st.messages ∧
    (handleRecordingComplete st (Except.error e) ttsOracle userMsgId botMsgId
        bufToken durationSec recordingStarted true).1.pendingAutoPlayQueue
      = st.pendingAutoPlayQueue ∧
    (handleRecordingComplete st (Except.error e) ttsOracle userMsgId botMsgId
        bufToken durationSec recordingStarted true).1.isLoading = false ∧
    (handleRecordingComplete st (Except.error e) ttsOracle userMsgId botMsgId
        bufToken durationSec recordingStarted true).2 = [] := by
  refine ⟨rfl, rfl, rfl, rfl⟩

/-- C7: when the audio context is still not running after the attempted
resume, `playMessageAudio` appends the message id to the pending queue unless
already present, sets the needs-unlock flag, returns `false`, and starts no
audio source. -/
theorem playMessageAudio_blocked (st : AppState) (msgId : Nat)
    (buffer : Option Nat) (rate : Option ℚ) (h : st.ctxRunning = false) :
    (playMessageAudio st msgId buffer rate).1 = false ∧
    (playMessageAudio st msgId buffer rate).2.1.pendingAutoPlayQueue =
      (if msgId ∈ st.pendingAutoPlayQueue then st.pendingAutoPlayQueue
       else st.pendingAutoPlayQueue ++ [msgId]) ∧
    (playMessageAudio st msgId buffer rate).2.1.audioUnlockRequired = true ∧
    (playMessageAudio st msgId buffer rate).2.1.sourceNode = none ∧
    ∀ id r, AppEvent.playStart id r ∉ (playMessageAudio st msgId buffer rate).2.2 := by
  by_cases hmem : msgId ∈ st.pendingAutoPlayQueue <;>
    simp [playMessageAudio, stopAudioPlayback, h, hmem]

/-- Witness for C7: a blocked context with an empty queue. -/
theorem playMessageAudio_blocked_witness :
    (playMessageAudio { ctxRunning := false } 3 none none).1 = false ∧
    (playMessageAudio { ctxRunning := false } 3 none none).2.1.pendingAutoPlayQueue =
      (if 3 ∈ ({ ctxRunning := false } : AppState).pendingAutoPlayQueue
       then ({ ctxRunning := false } : AppState).pendingAutoPlayQueue
       else ({ ctxRunning := false } : AppState).pendingAutoPlayQueue ++ [3]) ∧
    (playMessageAudio { ctxRunning := false } 3 none none).2.1.audioUnlockRequired = true ∧
    (playMessageAudio { ctxRunning := false } 3 none none).2.1.sourceNode = none ∧
    ∀ id r, AppEvent.playStart id r ∉ (playMessageAudio { ctxRunning := false } 3 none none).2.2 :=
  playMessageAudio_blocked { ctxRunning := false } 3 none none rfl

end LingoPal

namespace LingoPal

lemma tryPlayPendingSchedule_counts (obs : Nat → PendingObs) :
    ∀ n r, 21 - r = n →
      (∀ c ∈ (tryPlayPendingSchedule obs r).1, c ≤ 20) ∧
      (tryPlayPendingSchedule obs r).1.length ≤ 21 - r := by
  intro n
  induction n with
  | zero =>
    intro r hr
    have hgt : r > 20 := by omega
    rw [tryPlayPendingSchedule, dif_pos hgt]
    simp
  | succ n ih =>
    intro r hr
    have hle : ¬ r > 20 := by omega
    obtain ⟨ih1, ih2⟩ := ih (r + 1) (by omega)
    rw [tryPlayPendingSchedule, dif_neg hle]
    cases h : obs r with
    | emptyQueue => refine ⟨?_, ?_⟩ <;> simp <;> omega
    | played => refine ⟨?_, ?_⟩ <;> simp <;> omega
    | noBuffer =>
      refine ⟨?_, ?_⟩
      · intro c hc
        simp at hc
        rcases hc with rfl | hc
        · omega
        · exact ih1 c hc
      · simp only [List.length_cons]
        omega
    | playFailed =>
      refine ⟨?_, ?_⟩
      · intro c hc
        simp at hc
        rcases hc with rfl | hc
        · omega
        · exact ih1 c hc
      · simp only [List.length_cons]
        omega

/-- C4: `tryPlayPending` performs a bounded number of retries: every tick
below the ceiling runs at a retry count of at most 20, the whole chain makes
at most `21 - r` ticks from a starting count `r` (whatever the environment
does between ticks), and a call whose count exceeds 20 raises the unlock
prompt, makes no attempt and schedules no further retry — both in the
retry-control skeleton and in the sequential state model. -/
theorem tryPlayPending_retry_ceiling (obs : Nat → PendingObs) (r : Nat) :
    (∀ c ∈ (tryPlayPendingSchedule obs r).1, c ≤ 20) ∧
    (tryPlayPendingSchedule obs r).1.length ≤ 21 - r ∧
    (r > 20 → tryPlayPendingSchedule obs r = ([], true)) ∧
    (r > 20 → ∀ st : AppState,
      tryPlayPending st r = ({ st with audioUnlockRequired := true }, [])) := by
  refine ⟨(tryPlayPendingSchedule_counts obs (21 - r) r rfl).1,
          (tryPlayPendingSchedule_counts obs (21 - r) r rfl).2, ?_, ?_⟩
  · intro hgt
    rw [tryPlayPendingSchedule, dif_pos hgt]
  · intro hgt st
    rw [tryPlayPending, dif_pos hgt]

/-- Witness for C4 at the concrete count 21 with an environment that never
has a playable head. -/
theorem tryPlayPending_retry_ceiling_witness :
    tryPlayPendingSchedule (fun _ => PendingObs.noBuffer) 21 = ([], true) ∧
    tryPlayPending { ctxRunning := false } 21
      = ({ ({ ctxRunning := false } : AppState) with audioUnlockRequired := true }, []) :=
  ⟨(tryPlayPending_retry_ceiling (fun _ => PendingObs.noBuffer) 21).2.2.1 (by decide),
   (tryPlayPending_retry_ceiling (fun _ => PendingObs.noBuffer) 21).2.2.2 (by decide)
     { ctxRunning := false }⟩

end LingoPal

namespace PlaySched

lemma mem_of_get? {α : Type} : ∀ (l : List α) (n : Nat) (a : α),
    l[n]? = some a → a ∈ l
  | [], n, a => by simp
  | x :: xs, 0, a => by
    intro h
    simp only [List.getElem?_cons_zero, Option.some.injEq] at h
    exact h ▸ List.mem_cons_self x xs
  | x :: xs, n + 1, a => by
    intro h
    simp only [List.getElem?_cons_succ] at h
    exact List.mem_cons_of_mem x (mem_of_get? xs n a h)

lemma mem_of_mem_set {α : Type} : ∀ (l : List α) (n : Nat) (b a : α),
    a ∈ l.set n b → a ∈ l ∨ a = b
  | [], n, b, a => by simp
  | x :: xs, 0, b, a => by
    intro h
    simp only [List.set_cons_zero, List.mem_cons] at h
    rcases h with rfl | h
    · exact Or.inr rfl
    · exact Or.inl (List.mem_cons_of_mem x h)
  | x :: xs, n + 1, b, a => by
    intro h
    simp only [List.set_cons_succ, List.mem_cons] at h
    rcases h with rfl | h
    · exact Or.inl (List.mem_cons_self a xs)
    · rcases mem_of_mem_set xs n b a h with h | h
      · exact Or.inl (List.mem_cons_of_mem x h)
      · exact Or.inr h

/-- C2 counterexample: the claim "the playback coordinator never has two
audio sources active, for any interleaving of play requests" is false.  From
a suspended context, invocation A (message 1) stops nothing and parks at
`ctx.resume()`; the resume succeeds; invocation B (message 2) then runs
synchronously — its entry `stopAudioPlayback()` finds `sourceNodeRef` empty
(A has not started yet) and B starts its source; finally A's `sleep(50)`
timer fires, A re-checks the now-running context and starts its source
without stopping B's.  Both sources are then active.  The schedule
[0, 0, 1, 0] realises exactly this interleaving of src/App.tsx:770-828. -/
theorem playback_two_active_counterexample :
    ¬ NeverTwoActive suspendedStart twoPlayThreads := fun h =>
  absurd (h [0, 0, 1, 0]) (by decide)

/-- C2 amended: when every play invocation finds the audio context already
running — the synchronous path, in which `stopAudioPlayback()` and
`source.start()` execute in one atomic segment with no intervening `await` —
at most one audio source is ever active, under every interleaving: the
current source is always stopped before the new one starts. -/
theorem playback_single_source_when_running (s : SState) (threads : List SThread)
    (hrun : s.ctxRunning = true)
    (hact : s.active = (match s.sourceNode with | some x => [x] | none => []))
    (hph : ∀ t ∈ threads, t.phase = Phase.entry ∨ t.phase = Phase.done) :
    ∀ sched : List Nat, (run s threads sched).1.active.length ≤ 1 := by
  intro sched
  induction sched generalizing s threads with
  | nil =>
    rw [run, hact]
    cases s.sourceNode <;> simp
  | cons tid rest ih =>
    rw [run]
    cases hget : threads[tid]? with
    | none => exact ih s threads hrun hact hph
    | some t =>
      show (run (stepThread s t).1 (threads.set tid (stepThread s t).2)
              rest).1.active.length ≤ 1
      rcases hph t (mem_of_get? threads tid t hget) with hE | hD
      · have hstep : stepThread s t =
            (startSource (stopCurrent s) t.msgId, { t with phase := Phase.done }) := by
          rw [stepThread, hE]
          have : (stopCurrent s).ctxRunning = true := by
            unfold stopCurrent
            cases s.sourceNode <;> simpa using hrun
          simp [this]
        rw [hstep]
        apply ih
        · unfold startSource stopCurrent
          cases s.sourceNode <;> simpa using hrun
        · unfold startSource stopCurrent
          cases hsrc : s.sourceNode with
          | none => rw [hsrc] at hact; simp [hact]
          | some x => rw [hsrc] at hact; simp [hact]
        · intro t' ht'
          rcases mem_of_mem_set _ _ _ _ ht' with h | rfl
          · exact hph t' h
          · exact Or.inr rfl
      · have hstep : stepThread s t = (s, t) := by rw [stepThread, hD]
        rw [hstep]
        apply ih s _ hrun hact
        intro t' ht'
        rcases mem_of_mem_set _ _ _ _ ht' with h | rfl
        · exact hph t' h
        · exact Or.inr hD

/-- Witness for the amended C2: two atomic invocations from a running
context, each scheduled twice. -/
theorem playback_single_source_when_running_witness :
    (run runningStart twoPlayThreads [0, 1, 0, 1]).1.active.length ≤ 1 :=
  playback_single_source_when_running runningStart twoPlayThreads rfl rfl
    (by decide) [0, 1, 0, 1]

end PlaySched

namespace LingoPal

/-- C8: when the analysis transcript is a recognized repeat phrase with no
trailing content and a preceding bot message with content exists, the new bot
reply content equals that bot message's content with empty vocabulary and
cultural notes, cleared feedback and system command, and the user-transcript
fields taken from the new analysis result. -/
theorem repeat_request_uses_last_bot (msgs : List Message) (rd : AIResponseData)
    (lastBot : Message) (c : AIResponseData)
    (hparse : parseRepeatRequest rd.userTranscript = some "")
    (hfind : msgs.reverse.find?
        (fun (m : Message) => m.sender == Sender.bot && m.content.isSome) = some lastBot)
    (hc : lastBot.content = some c) :
    applyRepeatRequest msgs rd =
      { c with
          userTranscript := rd.userTranscript,
          userTransliteration := rd.userTransliteration,
          sourceLanguage := rd.sourceLanguage,
          vocabulary := [], culturalNotes := [],
          feedback := none, systemCommand := none } := by
  have hempty : (!(strTrim "").data.isEmpty) = false := rfl
  simp only [applyRepeatRequest, hparse, hempty, Bool.false_eq_true, if_false,
    hfind, hc]

/-- Witness for C8: the transcript "again" after one bot reply. -/
theorem repeat_request_uses_last_bot_witness :
    applyRepeatRequest
        [{ id := 0, sender := Sender.bot, content := some rdW }]
        { rdW with userTranscript := "again" } =
      { rdW with
          userTranscript := ({ rdW with userTranscript := "again" } : AIResponseData).userTranscript,
          userTransliteration := ({ rdW with userTranscript := "again" } : AIResponseData).userTransliteration,
          sourceLanguage := ({ rdW with userTranscript := "again" } : AIResponseData).sourceLanguage,
          vocabulary := [], culturalNotes := [],
          feedback := none, systemCommand := none } :=
  repeat_request_uses_last_bot
    [{ id := 0, sender := Sender.bot, content := some rdW }]
    { rdW with userTranscript := "again" }
    { id := 0, sender := Sender.bot, content := some rdW } rdW
    (by decide) (by decide) rfl

end LingoPal

namespace LingoPal

lemma vadRun_cons (g : Bool) (st : VadState) (a : ℚ) (rest : List ℚ) :
    (vadRun g st (a :: rest)).1 = (vadRun g (vadStep g st a).1 rest).1 := rfl

lemma vadRun_nil (g : Bool) (st : VadState) : (vadRun g st []).1 = st := rfl

lemma vadStep_accum (st : VadState) (a : ℚ) (h : st.samples < 12) :
    (vadStep true st a).1 =
      { samples := st.samples + 1, baselineSum := st.baselineSum + a,
        noiseFloor := if st.samples + 1 = 12
          then some ((st.baselineSum + a) / ((st.samples + 1 : Nat) : ℚ))
          else st.noiseFloor } := by
  simp [vadStep, h]

lemma vadRun_calibrates : ∀ (readings : List ℚ) (st : VadState),
    st.samples < 12 → st.samples + readings.length = 12 →
    (vadRun true st readings).1.samples = 12 ∧
    (vadRun true st readings).1.noiseFloor
      = some ((st.baselineSum + readings.sum) / 12)
  | [], st => by
    intro h1 h2
    simp at h2
    omega
  | a :: rest, st => by
    intro h1 h2
    rw [vadRun_cons, vadStep_accum st a h1]
    simp only [List.length_cons] at h2
    by_cases h12 : st.samples + 1 = 12
    · have hrest : rest = [] := by
        have hlen : rest.length = 0 := by omega
        exact List.length_eq_zero.mp hlen
      subst hrest
      rw [vadRun_nil]
      refine ⟨by simpa using h12, ?_⟩
      simp only [h12, if_pos]
      norm_num
    · have hlt : st.samples + 1 < 12 := by omega
      obtain ⟨ihs, ihf⟩ := vadRun_calibrates rest
        { samples := st.samples + 1, baselineSum := st.baselineSum + a,
          noiseFloor := if st.samples + 1 = 12
            then some ((st.baselineSum + a) / ((st.samples + 1 : Nat) : ℚ))
            else st.noiseFloor }
        (by simpa using hlt) (by simp; omega)
      refine ⟨ihs, ?_⟩
      rw [ihf]
      simp only [List.sum_cons]
      ring_nf

/-- C6: with noise-guard calibration on, the floor fixed on the 12th polling
sample is the arithmetic mean of the first 12 mean-amplitude readings; once
the floor is fixed, each subsequent reading `a` leaves the state unchanged
and publishes `min(max(0, a − floor) / 100, 1)`; with calibration off, the
floor used is zero. -/
theorem vad_noise_floor_calibration (readings : List ℚ) (st : VadState) (a f : ℚ)
    (h12 : readings.length = 12) (hst : st.samples = 12)
    (hfl : st.noiseFloor = some f) :
    (vadRun true vadInit readings).1.noiseFloor = some (readings.sum / 12) ∧
    vadStep true st a = (st, min (max 0 (a - f) / 100) 1) ∧
    ∀ (s' : VadState) (b : ℚ), vadStep false s' b = (s', min (max 0 b / 100) 1) := by
  refine ⟨?_, ?_, ?_⟩
  · have h := (vadRun_calibrates readings vadInit (by simp [vadInit])
      (by simp [vadInit, h12])).2
    simpa [vadInit] using h
  · by_cases hf : f = 0 <;> simp [vadStep, hst, hfl, hf]
  · intro s' b
    simp [vadStep]

/-- Witness for C6: readings 1..12 (mean 13/2), then the reading 20. -/
theorem vad_noise_floor_calibration_witness :
    (vadRun true vadInit
        [1, 2, 3, 4, 5, 6, 7, 8, 9, 10, 11, 12]).1.noiseFloor
      = some (([1, 2, 3, 4, 5, 6, 7, 8, 9, 10, 11, 12] : List ℚ).sum / 12) ∧
    vadStep true { samples := 12, baselineSum := 78, noiseFloor := some (13/2) } 20
      = ({ samples := 12, baselineSum := 78, noiseFloor := some (13/2) },
         min (max 0 ((20 : ℚ) - 13/2) / 100) 1) :=
  ⟨(vad_noise_floor_calibration [1, 2, 3, 4, 5, 6, 7, 8, 9, 10, 11, 12]
      { samples := 12, baselineSum := 78, noiseFloor := some (13/2) } 20 (13/2)
      rfl rfl rfl).1,
   (vad_noise_floor_calibration [1, 2, 3, 4, 5, 6, 7, 8, 9, 10, 11, 12]
      { samples := 12, baselineSum := 78, noiseFloor := some (13/2) } 20 (13/2)
      rfl rfl rfl).2.1⟩

end LingoPal

namespace LingoPal

lemma gsr_flagged (oracle : Nat → TtsResult) (ix r : Nat) :
    generateSpeechWithRetry oracle ix true r
      = (Except.error "TTS quota exceeded", true, []) := by
  rw [generateSpeechWithRetry]
  simp

lemma gsr_quota_stops (oracle : Nat → TtsResult) (ix r : Nat) (msg : String)
    (hq : isQuotaError msg = true) (ho : oracle ix = TtsResult.err msg) :
    generateSpeechWithRetry oracle ix false r
      = (Except.error msg, true, [AppEvent.remoteTts ix]) := by
  rw [generateSpeechWithRetry]
  simp [ho, hq]

lemma gsr_zero_events (oracle : Nat → TtsResult) (ix : Nat) :
    (generateSpeechWithRetry oracle ix false 0).2.2 = [AppEvent.remoteTts ix] := by
  rw [generateSpeechWithRetry]
  cases h : oracle ix with
  | ok audio => simp
  | err m => by_cases hq : isQuotaError m <;> simp [hq]

lemma gsr_retry_once (oracle : Nat → TtsResult) (msg : String)
    (hn : isQuotaError msg = false) (ho : oracle 0 = TtsResult.err msg) :
    (generateSpeechWithRetry oracle 0 false 1).2.2
      = [AppEvent.remoteTts 0, AppEvent.backoffMs 400, AppEvent.remoteTts 1] := by
  rw [generateSpeechWithRetry]
  simp [ho, hn, gsr_zero_events]

lemma applyRepeatRequest_none (msgs : List Message) (rd : AIResponseData)
    (hparse : parseRepeatRequest rd.userTranscript = none) :
    applyRepeatRequest msgs rd = rd := by
  simp [applyRepeatRequest, hparse]

lemma hrc_quota_fallback (st : AppState) (rd : AIResponseData)
    (oracle : Nat → TtsResult) (msg : String) (u b buf : Nat) (d : ℚ) (rec : Bool)
    (hflag : st.ttsQuotaExceeded = false)
    (hparse : parseRepeatRequest rd.userTranscript = none)
    (hcmd : rd.systemCommand = none)
    (hbot : b ∉ st.pendingAutoPlayQueue)
    (hq : isQuotaError msg = true)
    (ho : oracle 0 = TtsResult.err msg) :
    (handleRecordingComplete st (Except.ok rd) oracle u b buf d rec true).2
      = [AppEvent.queuePush b, AppEvent.remoteTts 0, AppEvent.queueRemove b,
         AppEvent.browserSpeak rd.targetText] ∧
    (handleRecordingComplete st
        (Except.ok rd) oracle u b buf d rec true).1.ttsQuotaExceeded = true := by
  have happly : applyRepeatRequest st.messages rd = rd :=
    applyRepeatRequest_none st.messages rd hparse
  have hgsr := gsr_quota_stops oracle 0 1 msg hq ho
  refine ⟨?_, ?_⟩ <;>
    simp [handleRecordingComplete, hcmd, happly, hflag, hgsr, hbot, hq]

end LingoPal

namespace LingoPal

/-- C5: a remote synthesis failure whose message is quota-classified sets the
sticky flag and makes no further remote attempt in that call; any synthesis
call entered with the flag set makes no remote attempt at all; in the turn
handler the on-device fallback is then invoked with the bot reply text; and a
non-quota failure is retried exactly once after the fixed 400 ms back-off. -/
theorem quota_and_retry_policy (st : AppState) (rd : AIResponseData)
    (oracleQ oracleN : Nat → TtsResult) (msgQ msgN : String)
    (u b buf : Nat) (d : ℚ) (rec : Bool)
    (hq : isQuotaError msgQ = true) (hoQ : oracleQ 0 = TtsResult.err msgQ)
    (hn : isQuotaError msgN = false) (hoN : oracleN 0 = TtsResult.err msgN)
    (hflag : st.ttsQuotaExceeded = false)
    (hparse : parseRepeatRequest rd.userTranscript = none)
    (hcmd : rd.systemCommand = none)
    (hbot : b ∉ st.pendingAutoPlayQueue) :
    (∀ (oracle : Nat → TtsResult) (ix r : Nat),
      generateSpeechWithRetry oracle ix true r
        = (Except.error "TTS quota exceeded", true, [])) ∧
    generateSpeechWithRetry oracleQ 0 false 1
      = (Except.error msgQ, true, [AppEvent.remoteTts 0]) ∧
    (generateSpeechWithRetry oracleN 0 false 1).2.2
      = [AppEvent.remoteTts 0, AppEvent.backoffMs 400, AppEvent.remoteTts 1] ∧
    (handleRecordingComplete st (Except.ok rd) oracleQ u b buf d rec true).2
      = [AppEvent.queuePush b, AppEvent.remoteTts 0, AppEvent.queueRemove b,
         AppEvent.browserSpeak rd.targetText] ∧
    (handleRecordingComplete st
        (Except.ok rd) oracleQ u b buf d rec true).1.ttsQuotaExceeded = true :=
  ⟨gsr_flagged,
   gsr_quota_stops oracleQ 0 1 msgQ hq hoQ,
   gsr_retry_once oracleN msgN hn hoN,
   (hrc_quota_fallback st rd oracleQ msgQ u b buf d rec
      hflag hparse hcmd hbot hq hoQ).1,
   (hrc_quota_fallback st rd oracleQ msgQ u b buf d rec
      hflag hparse hcmd hbot hq hoQ).2⟩

/-- Witness for C5: a fresh session, the quota failure "quota exceeded", the
transient failure "network error", and the plain reply `rdW`. -/
theorem quota_and_retry_policy_witness :
    generateSpeechWithRetry (fun _ => TtsResult.err "quota exceeded") 0 false 1
      = (Except.error "quota exceeded", true, [AppEvent.remoteTts 0]) ∧
    (generateSpeechWithRetry (fun _ => TtsResult.err "network error") 0 false 1).2.2
      = [AppEvent.remoteTts 0, AppEvent.backoffMs 400, AppEvent.remoteTts 1] ∧
    (handleRecordingComplete {} (Except.ok rdW)
        (fun _ => TtsResult.err "quota exceeded") 1 2 7 0 false true).2
      = [AppEvent.queuePush 2, AppEvent.remoteTts 0, AppEvent.queueRemove 2,
         AppEvent.browserSpeak rdW.targetText] ∧
    (handleRecordingComplete {} (Except.ok rdW)
        (fun _ => TtsResult.err "quota exceeded") 1 2 7 0 false true).1.ttsQuotaExceeded
      = true :=
  ⟨(quota_and_retry_policy {} rdW (fun _ => TtsResult.err "quota exceeded")
      (fun _ => TtsResult.err "network error") "quota exceeded" "network error"
      1 2 7 0 false (by decide) rfl (by decide) rfl rfl (by decide) rfl
      (by decide)).2.1,
   (quota_and_retry_policy {} rdW (fun _ => TtsResult.err "quota exceeded")
      (fun _ => TtsResult.err "network error") "quota exceeded" "network error"
      1 2 7 0 false (by decide) rfl (by decide) rfl rfl (by decide) rfl
      (by decide)).2.2.1,
   (quota_and_retry_policy {} rdW (fun _ => TtsResult.err "quota exceeded")
      (fun _ => TtsResult.err "network error") "quota exceeded" "network error"
      1 2 7 0 false (by decide) rfl (by decide) rfl rfl (by decide) rfl
      (by decide)).2.2.2.1,
   (quota_and_retry_policy {} rdW (fun _ => TtsResult.err "quota exceeded")
      (fun _ => TtsResult.err "network error") "quota exceeded" "network error"
      1 2 7 0 false (by decide) rfl (by decide) rfl rfl (by decide) rfl
      (by decide)).2.2.2.2⟩

end LingoPal

namespace LingoPal

/-- C3 counterexample: the claim "an entry of the pending-autoplay queue is
removed only after a confirmed playback start of that message" is false.  In
a fresh session, a completed turn whose only remote synthesis attempt fails
with a quota error (src/App.tsx:743-749) filters the just-queued bot message
id out of the pending queue and falls back to on-device speech: the trace
contains `queueRemove 2` with no preceding `playStart 2`. -/
theorem pending_removed_without_playStart :
    (handleRecordingComplete {} (Except.ok rdW)
        (fun _ => TtsResult.err "quota exceeded") 1 2 7 0 false true).2
      = [AppEvent.queuePush 2, AppEvent.remoteTts 0, AppEvent.queueRemove 2,
         AppEvent.browserSpeak "hola"] ∧
    removedOnlyAfterStart
        (handleRecordingComplete {} (Except.ok rdW)
          (fun _ => TtsResult.err "quota exceeded") 1 2 7 0 false true).2 []
      = false := by
  have h := (hrc_quota_fallback {} rdW (fun _ => TtsResult.err "quota exceeded")
    "quota exceeded" 1 2 7 0 false rfl (by decide) rfl (by decide) (by decide)
    rfl).1
  refine ⟨?_, ?_⟩
  · rw [h]
    rfl
  · rw [h]
    decide

/-- C3 amended: pending entries are serviced only at the queue head, in
order — with ids [a, b] pending and a playable head, one drain starts and
removes `a` and never touches `b` — and an entry is removed only after a
confirmed playback start of that message, except when remote synthesis for
that message fails with a quota error, in which case the entry is dropped
and the on-device fallback speaks the reply instead. -/
theorem pending_queue_discipline (stA stQ : AppState) (a b bufA r : Nat)
    (rd : AIResponseData) (oracle : Nat → TtsResult) (msg : String)
    (u bq buf : Nat) (d : ℚ) (rec : Bool)
    (hab : a ≠ b)
    (hqu : stA.pendingAutoPlayQueue = [a, b])
    (hctx : stA.ctxRunning = true)
    (hbufA : (stA.messages.find? (fun (m : Message) => m.id == a)).bind
        Message.audioBuffer = some bufA)
    (hr : r ≤ 20)
    (hflag : stQ.ttsQuotaExceeded = false)
    (hparse : parseRepeatRequest rd.userTranscript = none)
    (hcmd : rd.systemCommand = none)
    (hbotq : bq ∉ stQ.pendingAutoPlayQueue)
    (hqm : isQuotaError msg = true)
    (ho : oracle 0 = TtsResult.err msg) :
    (∃ rateA, (tryPlayPending stA r).2
        = [AppEvent.playStart a rateA, AppEvent.queueRemove a]) ∧
    (tryPlayPending stA r).1.pendingAutoPlayQueue = [b] ∧
    (∀ rate, AppEvent.playStart b rate ∉ (tryPlayPending stA r).2) ∧
    AppEvent.queueRemove b ∉ (tryPlayPending stA r).2 ∧
    (handleRecordingComplete stQ (Except.ok rd) oracle u bq buf d rec true).2
      = [AppEvent.queuePush bq, AppEvent.remoteTts 0, AppEvent.queueRemove bq,
         AppEvent.browserSpeak rd.targetText] := by
  have h20 : ¬ r > 20 := by omega
  have h : tryPlayPending stA r =
      (({ stA with
            sourceNode := some a,
            currentlyPlayingId := some a,
            audioUnlockRequired := false,
            pendingAutoPlayQueue := [b] } : AppState),
       [AppEvent.playStart a
          (match (stA.messages.find? (fun (m : Message) => m.id == a)).bind
              Message.playbackRateOverride with
           | some rate => rate
           | none => stA.settings.speechSpeed),
        AppEvent.queueRemove a]) := by
    rw [tryPlayPending, dif_neg h20]
    simp [hqu, hbufA, playMessageAudio, stopAudioPlayback, hctx]
  refine ⟨⟨_, by rw [h]⟩, by rw [h], ?_, ?_, ?_⟩
  · intro rate
    rw [h]
    simp [Ne.symm hab]
  · rw [h]
    simp [Ne.symm hab]
  · exact (hrc_quota_fallback stQ rd oracle msg u bq buf d rec
      hflag hparse hcmd hbotq hqm ho).1

end LingoPal

namespace LingoPal

/-- Witness for the amended C3: queue [5, 6] with message 5 playable, and the
quota-failure turn of a fresh session. -/
theorem pending_queue_discipline_witness :
    (tryPlayPending
        { messages := [{ id := 5, sender := Sender.bot, content := some rdW,
                         audioBuffer := some 7 }],
          pendingAutoPlayQueue := [5, 6] } 1).1.pendingAutoPlayQueue = [6] ∧
    (handleRecordingComplete {} (Except.ok rdW)
        (fun _ => TtsResult.err "quota exceeded") 1 2 7 0 false true).2
      = [AppEvent.queuePush 2, AppEvent.remoteTts 0, AppEvent.queueRemove 2,
         AppEvent.browserSpeak rdW.targetText] :=
  ⟨(pending_queue_discipline
      { messages := [{ id := 5, sender := Sender.bot, content := some rdW,
                       audioBuffer := some 7 }],
        pendingAutoPlayQueue := [5, 6] }
      {} 5 6 7 1 rdW (fun _ => TtsResult.err "quota exceeded") "quota exceeded"
      1 2 7 0 false (by decide) rfl rfl (by decide) (by decide) rfl (by decide)
      rfl (by decide) (by decide) rfl).2.1,
   (pending_queue_discipline
      { messages := [{ id := 5, sender := Sender.bot, content := some rdW,
                       audioBuffer := some 7 }],
        pendingAutoPlayQueue := [5, 6] }
      {} 5 6 7 1 rdW (fun _ => TtsResult.err "quota exceeded") "quota exceeded"
      1 2 7 0 false (by decide) rfl rfl (by decide) (by decide) rfl (by decide)
      rfl (by decide) (by decide) rfl).2.2.2.2⟩

end LingoPal
